import Mathlib

/-
Shallow embedding of the elogging library (elogging.go): a scoped, leveled
logging utility.  Severity levels are machine integers in the source (type
llevel = int32); all values that actually arise are tiny, so they are
modelled as Int with Go's truncated remainder (Int.tmod) where the source
uses the % operator.  The out-of-scope text-formatting collaborator
(fmt.Sprint / fmt.Sprintf and the log.Logger line writer) is abstracted:
emission functions receive the already-formatted message body and return a
LogResult recording what would be written.
-/

/- Severity levels.  Source: type llevel int32 with constants lDisabled..lTrace. -/

abbrev llevel := Int

def lDisabled : llevel := 0

def lError : llevel := 1

def lWarn : llevel := 2

def lInfo : llevel := 3

def lVerbose : llevel := 4

def lTrace : llevel := 5

/-- Go strings.ToLower, restricted to ASCII (every level name the source
recognizes is ASCII, which is all the claims exercise). -/
def goToLower (s : String) : String := String.mk (s.data.map Char.toLower)

/-- Source: func (l llevel) String(). A switch on the level constants with
default "Disabled". -/
def llevelString (l : llevel) : String :=
  if l = lDisabled then "Disabled"
  else if l = lError then "Error"
  else if l = lWarn then "Warning"
  else if l = lInfo then "Info"
  else if l = lVerbose then "Verbose"
  else if l = lTrace then "Trace"
  else "Disabled"

/-- Source: func _valid(level string) string. Normalizes a level name to the
fixed uppercase header label, defaulting to "DISABLE". -/
def _valid (level : String) : String :=
  match goToLower level with
  | "err" | "error" => "ERROR"
  | "wrn" | "warn" | "warning" => "WARN"
  | "info" | "inf" => "INFO"
  | "verbose" | "vrb" => "VERBOSE"
  | "trace" | "trc" => "TRACE"
  | _ => "DISABLE"

/-- Source: func _value(level string) llevel. Parses a level name
(case-insensitively, after _valid-normalization) to its rank, defaulting to
lDisabled. -/
def _value (level : String) : llevel :=
  match goToLower (_valid level) with
  | "err" | "error" => lError
  | "wrn" | "warn" | "warning" => lWarn
  | "info" | "inf" => lInfo
  | "verbose" | "vrb" => lVerbose
  | "trace" | "trc" => lTrace
  | _ => lDisabled

/- Output destinations.  io.Sink values are only compared for identity by
the claims, so they are modelled as an enumerated sink identity. -/

inductive Sink where
  | stdout
  | stderr
  | buffer (tag : Nat)
deriving DecidableEq

/- elogging flag bits.  Source: ELSuppressRepeated = 1 << iota; ELLikeDefaultLog. -/

def ELSuppressRepeated : Nat := 1

def ELLikeDefaultLog : Nat := 2

/-- Source: func checkElFlag(flags int) bool, reading the global _elFlags;
modelled with the current flag word passed explicitly. -/
def checkElFlag (elFlags flags : Nat) : Bool := elFlags &&& flags != 0

/-- Identity of an Elog in the registry.  Source: _id is the sha1 hex digest
of scope ++ instance address (fmt.Sprintf with the %p verb).  The digest is
modelled as the (scope, address) pair it digests: the claims use the id only
as a lookup token, and the spec treats digest collisions as operationally
negligible, so the model keeps exactly the information the digest is built
from. -/
structure ElogId where
  scope : String
  addr : Nat
deriving DecidableEq

/-- Source: func _hash(s string) string over fmt.Sprintf("%s%p", scope, e);
see ElogId for the modelling of the digest. -/
def _hash (scope : String) (addr : Nat) : ElogId := ⟨scope, addr⟩

/-- Source: type Elog struct. The addr field models the Go pointer identity
of the instance (the map key of the registry and the %p input of _id); _log
models the internal *log.Logger, nil-able after Clear, with its non-identity
content abstracted away. -/
structure Elog where
  addr : Nat
  scope : String
  level : llevel
  _log : Option Unit
  _id : ElogId
  _out : Sink
  __lastMsg : String
  __lastCount : Int
deriving DecidableEq

/-- Result of one emission call: nothing written, one line written, or a nil
dereference of the internal logger (the Go panic observed by the tests). -/
inductive LogResult where
  | silent
  | emitted (line : String)
  | nilCrash
deriving DecidableEq

/-- Source: e._log.Output(depth, msg). A nil internal logger panics. -/
def elogOutput (e : Elog) (msg : String) : LogResult :=
  match e._log with
  | none => LogResult.nilCrash
  | some _ => LogResult.emitted msg

/- Global state.  Source: package-level vars _globalLevel, logsActive,
_elFlags, _defaultOut, the registry map _logs (map from instance to scope,
modelled as the list of registered instances, scope readable from each), and
a fresh-address counter modelling the allocator. -/

structure GState where
  _globalLevel : llevel
  logsActive : Bool
  _elFlags : Nat
  _defaultOut : Sink
  _logs : List Elog
  nextAddr : Nat
deriving DecidableEq

/-- Source: the _stdLog singleton built by init(): empty scope, level lTrace,
the default standard logger (writing to standard error). -/
def _stdLogInit : Elog :=
  { addr := 0, scope := "", level := lTrace, _log := some (),
    _id := _hash "" 0, _out := Sink.stderr, __lastMsg := "", __lastCount := 0 }

/-- Process state right after package init: registry holds the _stdLog
singleton, logs active, no global override, _elFlags = ELLikeDefaultLog,
default output standard error. -/
def initState : GState :=
  { _globalLevel := lDisabled, logsActive := true, _elFlags := ELLikeDefaultLog,
    _defaultOut := Sink.stderr, _logs := [_stdLogInit], nextAddr := 1 }

/-- Fueled helper deciding whether a positive natural is a power of three by
repeated division (fuel at least n suffices). -/
def isPow3Aux : Nat → Nat → Bool
  | _, 1 => true
  | 0, _ => false
  | fuel + 1, n => decide (n % 3 = 0) && decide (2 ≤ n) && isPow3Aux fuel (n / 3)

/-- Source: func isPowerOfThree(n int) bool. The Go code tests whether
log(n)/log(3) is an integer in float64 arithmetic (truncating, then rounding
to 9 digits); modelled as the exact power-of-three test that computation
implements.  The float computation agrees with the exact test at every count
the claims and the repository tests exercise (0 through 81); nonpositive
arguments yield false in both. -/
def isPowerOfThree (n : Int) : Bool := decide (0 < n) && isPow3Aux n.toNat n.toNat

/-- Header written before each leveled message body.
Source line 422: " (" + _valid(level.String()) + ") ". -/
def header (level : llevel) : String := " (" ++ _valid (llevelString level) ++ ") "

/-- Source line 437: the repeat indicator text. -/
def repeatedMsg (count : Int) : String :=
  " last message repeated " ++ toString count ++ " times"

/-- Tail of _logf shared by both suppression branches (source lines 443-448):
emit when the count is a power of three or zero, appending the
too-many-times suffix when the count exceeds 9. -/
def suppressTail (e : Elog) (msg : String) : Elog × LogResult :=
  if isPowerOfThree e.__lastCount || e.__lastCount = 0 then
    let msg := if e.__lastCount > 9 then msg ++ " (too many times)" else msg
    (e, elogOutput e msg)
  else (e, LogResult.silent)

/-- Source: func (e *Elog) _logf(level, format, args...). The fmt formatting
of format/args is the out-of-scope collaborator; body is the formatted
result.  Returns the updated instance (repeat-suppression memory) and what
was written. -/
def _logf (g : GState) (e : Elog) (level : llevel) (body : String) : Elog × LogResult :=
  if ¬ (g.logsActive = true ∧ (level ≤ e.level ∨ (lDisabled < g._globalLevel ∧ level ≤ g._globalLevel))) then
    (e, LogResult.silent)
  else
    let msg := header level ++ body
    if ¬ checkElFlag g._elFlags ELSuppressRepeated then
      (e, elogOutput e msg)
    else
      if msg = e.__lastMsg then
        let e' := { e with __lastCount := e.__lastCount + 1 }
        suppressTail e' (repeatedMsg e'.__lastCount)
      else
        let e' := { e with __lastCount := 0, __lastMsg := msg }
        suppressTail e' msg

/-- Eligibility filter of _logf (source line 418), as stated by the spec:
pass iff logs are active and the call level is within the instance level or
within a global override that is strictly above Disabled. -/
def eligible (g : GState) (e : Elog) (level : llevel) : Prop :=
  g.logsActive = true ∧ (level ≤ e.level ∨ (lDisabled < g._globalLevel ∧ level ≤ g._globalLevel))

instance (g : GState) (e : Elog) (level : llevel) : Decidable (eligible g e level) :=
  inferInstanceAs (Decidable (_ ∧ _))

/- Leveled emission methods (source lines 352-400): each fixes the call
level and forwards to _logf.  The formatted (Errorf-style) and direct
(Error-style) forms differ only in the out-of-scope fmt call producing the
body, so both receive the formatted body here. -/

def Elog.Error (g : GState) (e : Elog) (body : String) : Elog × LogResult :=
  _logf g e lError body

def Elog.Warn (g : GState) (e : Elog) (body : String) : Elog × LogResult :=
  _logf g e lWarn body

def Elog.Info (g : GState) (e : Elog) (body : String) : Elog × LogResult :=
  _logf g e lInfo body

def Elog.Verbose (g : GState) (e : Elog) (body : String) : Elog × LogResult :=
  _logf g e lVerbose body

def Elog.Trace (g : GState) (e : Elog) (body : String) : Elog × LogResult :=
  _logf g e lTrace body

def Elog.Errorf (g : GState) (e : Elog) (body : String) : Elog × LogResult :=
  _logf g e lError body

def Elog.Warnf (g : GState) (e : Elog) (body : String) : Elog × LogResult :=
  _logf g e lWarn body

def Elog.Infof (g : GState) (e : Elog) (body : String) : Elog × LogResult :=
  _logf g e lInfo body

def Elog.Verbosef (g : GState) (e : Elog) (body : String) : Elog × LogResult :=
  _logf g e lVerbose body

def Elog.Tracef (g : GState) (e : Elog) (body : String) : Elog × LogResult :=
  _logf g e lTrace body

/-- Source: func (e *Elog) Cond(condition, trueLevel, falseLevel, args...). -/
def Elog.Cond (g : GState) (e : Elog) (condition : Bool) (trueLevel falseLevel : String)
    (body : String) : Elog × LogResult :=
  if condition then _logf g e (_value (_valid trueLevel)) body
  else _logf g e (_value (_valid falseLevel)) body

/-- Source: func (e *Elog) Condf(condition, trueLevel, falseLevel, format, args...). -/
def Elog.Condf (g : GState) (e : Elog) (condition : Bool) (trueLevel falseLevel : String)
    (body : String) : Elog × LogResult :=
  if condition then _logf g e (_value (_valid trueLevel)) body
  else _logf g e (_value (_valid falseLevel)) body

/- Unleveled instance methods (source lines 326-348): only the master switch
logsActive is consulted; the line is tagged with the method name. -/

/-- Source: func (e *Elog) Println(args...). -/
def Elog.Println (g : GState) (e : Elog) (body : String) : LogResult :=
  if g.logsActive = false then LogResult.silent
  else elogOutput e (" (Println) " ++ body)

/-- Source: func (e *Elog) Printf(format, args...). -/
def Elog.Printf (g : GState) (e : Elog) (body : String) : LogResult :=
  if g.logsActive = false then LogResult.silent
  else elogOutput e (" (Printf) " ++ body)

/-- Source: func (e *Elog) Print(args...). -/
def Elog.Print (g : GState) (e : Elog) (body : String) : LogResult :=
  if g.logsActive = false then LogResult.silent
  else elogOutput e (" (Print) " ++ body)

/- Package-level print family on the _stdLog singleton (source lines
476-509): with ELLikeDefaultLog set they forward to the plain underlying
log primitive (no filtering, no tag); otherwise they return unless
logsActive and the singleton's level is not lDisabled, then emit tagged. -/

/-- Source: func Println(args...), acting on the _stdLog singleton std. -/
def Println (g : GState) (std : Elog) (body : String) : LogResult :=
  if checkElFlag g._elFlags ELLikeDefaultLog then elogOutput std body
  else if g.logsActive = false ∨ std.level = lDisabled then LogResult.silent
  else elogOutput std (" (Println) " ++ body)

/-- Source: func Printf(format, args...), acting on the _stdLog singleton std. -/
def Printf (g : GState) (std : Elog) (body : String) : LogResult :=
  if checkElFlag g._elFlags ELLikeDefaultLog then elogOutput std body
  else if g.logsActive = false ∨ std.level = lDisabled then LogResult.silent
  else elogOutput std (" (Printf) " ++ body)

/-- Source: func Print(args...), acting on the _stdLog singleton std. -/
def Print (g : GState) (std : Elog) (body : String) : LogResult :=
  if checkElFlag g._elFlags ELLikeDefaultLog then elogOutput std body
  else if g.logsActive = false ∨ std.level = lDisabled then LogResult.silent
  else elogOutput std (" (Print) " ++ body)

/- Level mutators (source lines 296-314).  The source % operator on the
int32 llevel is Go's truncated remainder, Int.tmod. -/

/-- Source: func (e *Elog) SetLevel(level string). -/
def Elog.SetLevel (e : Elog) (level : String) : Elog :=
  { e with level := _value (_valid level) }

/-- Source: func (e *Elog) CycleLevelUp(): e.level = (e.level + 1) % (lTrace + 1). -/
def Elog.CycleLevelUp (e : Elog) : Elog :=
  { e with level := (e.level + 1).tmod (lTrace + 1) }

/-- Source: func (e *Elog) CycleLevelDown(): e.level = (e.level - 1) % (lTrace + 1). -/
def Elog.CycleLevelDown (e : Elog) : Elog :=
  { e with level := (e.level - 1).tmod (lTrace + 1) }

/- Constructor and registry operations (source lines 203-294). -/

/-- Source: func NewElog(scope, level string, out io.Writer) *Elog. A nil out
defaults to os.Stdout (line 248); an empty level defaults to "info" (line
251); the new instance gets a fresh address, its id hash, and is inserted
into the registry (the address is fresh, so map insertion is an append). -/
def NewElog (st : GState) (scope level : String) (out : Option Sink) : GState × Elog :=
  let out := match out with
             | none => Sink.stdout
             | some w => w
  let level := if level = "" then "info" else level
  let e : Elog :=
    { addr := st.nextAddr, scope := scope, level := _value (_valid level),
      _log := some (), _id := _hash scope st.nextAddr, _out := out,
      __lastMsg := "", __lastCount := 0 }
  ({ st with _logs := st._logs ++ [e], nextAddr := st.nextAddr + 1 }, e)

/-- Source: func NewElogDefaults(scope string): NewElog(scope, "info", _defaultOut). -/
def NewElogDefaults (st : GState) (scope : String) : GState × Elog :=
  NewElog st scope "info" (some st._defaultOut)

/-- Source: func (e *Elog) Clear(): delete from the registry, set the level
to lDisabled and the internal logger to nil. -/
def Elog.Clear (st : GState) (e : Elog) : GState × Elog :=
  ({ st with _logs := st._logs.filter (fun k => k.addr ≠ e.addr) },
   { e with level := lDisabled, _log := none })

/-- Ordering of registry enumeration.  Source: elogList.Less compares scope
names. -/
def scopeLe (a b : Elog) : Prop := a.scope ≤ b.scope

instance : DecidableRel scopeLe :=
  fun a b => inferInstanceAs (Decidable (a.scope ≤ b.scope))

instance : IsTotal Elog scopeLe := ⟨fun a b => le_total a.scope b.scope⟩

instance : IsTrans Elog scopeLe := ⟨fun _ _ _ h h' => le_trans h h'⟩

/-- Source: func ListScopedLogs(): collect the registry keys and sort by
scope name.  Go map iteration order is unspecified; the sort makes the
result deterministic up to equal scope names, and the claims use only
sortedness and the multiset of entries. -/
def ListScopedLogs (st : GState) : List Elog :=
  List.insertionSort scopeLe st._logs

/-- Source: func GetScopedLogByID(id): linear scan of the registry for a
matching _id, returning nothing if absent. -/
def GetScopedLogByID (st : GState) (id : ElogId) : Option Elog :=
  st._logs.find? (fun k => k._id == id)

/- Scenario helpers used by the claims (not source functions). -/

/-- Scenario helper: a sequence of leveled calls at one level on one logger,
threading the suppression state, collecting each call's result. -/
def runLog (g : GState) (e : Elog) (level : llevel) : List String → Elog × List LogResult
  | [] => (e, [])
  | b :: bs =>
    let step := _logf g e level b
    let rest := runLog g step.1 level bs
    (rest.1, step.2 :: rest.2)

/-- Scenario helper: the lines actually written in a list of call results. -/
def emittedLines (rs : List LogResult) : List String :=
  rs.filterMap (fun r => match r with
    | LogResult.emitted s => some s
    | _ => none)

/-- Scenario helper: create one logger per scope name (level "info", nil
out), as in the spec's registry scenario, returning the final state and the
created instances in order. -/
def createAll (st : GState) : List String → GState × List Elog
  | [] => (st, [])
  | s :: rest =>
    let fst := NewElog st s "info" none
    let more := createAll fst.1 rest
    (more.1, fst.2 :: more.2)

/-- Scenario helper: a standalone live logger at a given level. -/
def elogAt (l : llevel) : Elog :=
  { addr := 1, scope := "s", level := l, _log := some (),
    _id := _hash "s" 1, _out := Sink.stdout, __lastMsg := "", __lastCount := 0 }

/-- Scenario state: elogging flags cleared (no mimic, no suppression),
otherwise the initial process state. -/
def gPlain : GState := { initState with _elFlags := 0 }

/-- Scenario state: suppression enabled on top of the initial flags, as the
repository's TestSuppress does. -/
def gSup : GState := { initState with _elFlags := ELLikeDefaultLog ||| ELSuppressRepeated }

/-- Scenario state: the default singleton with its level set to lDisabled. -/
def stdDisabled : Elog := { _stdLogInit with level := lDisabled }

/-- Scenario state: an Info-level logger whose suppression memory already
holds the message " (INFO) m" with repeat count 2. -/
def eRep : Elog := { elogAt lInfo with __lastMsg := " (INFO) m", __lastCount := 2 }

/-- Recognized level spellings of the parser (the case arms of _value after
lowering), all lowercase. -/
def recognizedLevelNames : List String :=
  ["err", "error", "wrn", "warn", "warning", "info", "inf", "verbose", "vrb", "trace", "trc"]

/-- Registry well-formedness: every registered instance has an address below
the allocator counter (addresses are never reused), addresses are pairwise
distinct (each live instance appears exactly once), and each entry carries
the id generated from its scope and address. -/
def RegInv (st : GState) : Prop :=
  (∀ k ∈ st._logs, k.addr < st.nextAddr)
  ∧ (st._logs.map Elog.addr).Nodup
  ∧ (∀ k ∈ st._logs, k._id = _hash k.scope k.addr)

/- Theorems.  Shared helper lemmas come first; the claim theorems follow. -/

/-- Helper: with suppression off and a live internal logger, a leveled call
writes a line exactly when the filter passes. -/
theorem logf_ne_silent_iff (g : GState) (e : Elog) (level : llevel) (body : String)
    (hlog : e._log = some ()) (hsup : checkElFlag g._elFlags ELSuppressRepeated = false) :
    (_logf g e level body).2 ≠ LogResult.silent ↔ eligible g e level := by
  by_cases h : g.logsActive = true ∧ (level ≤ e.level ∨ (lDisabled < g._globalLevel ∧ level ≤ g._globalLevel))
  · rw [_logf, if_neg (not_not_intro h), if_pos (by simp [hsup])]
    simp [elogOutput, hlog, eligible, h]
  · rw [_logf, if_pos h]
    simpa [eligible] using h

/-- Helper: a filtered-out leveled call returns silently with the instance
unchanged, whatever the flags and whatever the internal logger. -/
theorem logf_silent_of_not_eligible (g : GState) (e : Elog) (level : llevel) (body : String)
    (h : ¬ eligible g e level) :
    _logf g e level body = (e, LogResult.silent) := by
  rw [_logf, if_pos (by simpa [eligible] using h)]

/-- Claim C3: the level-cycling bug.  CycleLevelDown applied to a logger at
lDisabled yields level -1 (the Go % operator is a truncated remainder and
keeps the sign of its dividend), which is negative and is not lTrace, and
six CycleLevelDown applications starting from lError yield -5 instead of
returning to lError; CycleLevelUp, in contrast, does wrap and six
applications return every legal level to itself. -/
theorem C3_cycle_down_bug :
    ((elogAt lDisabled).CycleLevelDown).level = -1
  ∧ ((elogAt lDisabled).CycleLevelDown).level < lDisabled
  ∧ ((elogAt lDisabled).CycleLevelDown).level ≠ lTrace
  ∧ ((elogAt lError).CycleLevelDown.CycleLevelDown.CycleLevelDown.CycleLevelDown.CycleLevelDown.CycleLevelDown).level = -5
  ∧ ((elogAt lDisabled).CycleLevelUp.CycleLevelUp.CycleLevelUp.CycleLevelUp.CycleLevelUp.CycleLevelUp).level = lDisabled
  ∧ ((elogAt lError).CycleLevelUp.CycleLevelUp.CycleLevelUp.CycleLevelUp.CycleLevelUp.CycleLevelUp).level = lError
  ∧ ((elogAt lWarn).CycleLevelUp.CycleLevelUp.CycleLevelUp.CycleLevelUp.CycleLevelUp.CycleLevelUp).level = lWarn
  ∧ ((elogAt lInfo).CycleLevelUp.CycleLevelUp.CycleLevelUp.CycleLevelUp.CycleLevelUp.CycleLevelUp).level = lInfo
  ∧ ((elogAt lVerbose).CycleLevelUp.CycleLevelUp.CycleLevelUp.CycleLevelUp.CycleLevelUp.CycleLevelUp).level = lVerbose
  ∧ ((elogAt lTrace).CycleLevelUp.CycleLevelUp.CycleLevelUp.CycleLevelUp.CycleLevelUp.CycleLevelUp).level = lTrace := by
  decide

/-- Claim C4 counterexample: NewElog with a nil sink sets the output to
standard output, which is not the process-wide default output (standard
error at process start). -/
theorem C4_counterexample :
    (NewElog initState "svc" "info" none).2._out = Sink.stdout
  ∧ initState._defaultOut = Sink.stderr
  ∧ (NewElog initState "svc" "info" none).2._out ≠ initState._defaultOut := by
  decide

/-- Claim C4 (amended): in NewElog an empty level string defaults the level
to Info and a nil sink defaults the output to standard output; the
process-wide default output is initially standard error and is the sink
NewElogDefaults passes. -/
theorem C4_constructor_defaults (st : GState) (scope : String) (out : Option Sink) :
    (NewElog st scope "" out).2.level = lInfo
  ∧ (NewElog st scope "" none).2._out = Sink.stdout
  ∧ initState._defaultOut = Sink.stderr
  ∧ (NewElogDefaults st scope).2._out = st._defaultOut := by
  refine ⟨rfl, rfl, rfl, rfl⟩

/-- Claim C9: parsing a level string never fails; every string whose
lowercase form is not a recognized spelling of Error/Warning/Info/Verbose/
Trace parses to lDisabled. -/
theorem C9_unrecognized_levels (s : String) (h : goToLower s ∉ recognizedLevelNames) :
    _value s = lDisabled := by
  have hv : _valid s = "DISABLE" := by
    unfold _valid
    split
    all_goals first
      | rfl
      | exact absurd (by simp [recognizedLevelNames, *]) h
  unfold _value
  rw [hv]
  decide

/-- Claim C9 witness: the string "bogus" is unrecognized and parses to
lDisabled. -/
theorem C9_unrecognized_levels_witness :
    goToLower "bogus" ∉ recognizedLevelNames ∧ _value "bogus" = lDisabled :=
  ⟨by decide, C9_unrecognized_levels "bogus" (by decide)⟩

/-- Claim C10: after Clear (level lDisabled, internal logger nil), every
leveled call at a level between lError and lTrace, made while the global
override is lDisabled, returns silently without touching the nil internal
logger, whatever the flags and whether or not logs are active. -/
theorem C10_clear_safe (st g : GState) (e : Elog) (level : llevel) (body : String)
    (hg : g._globalLevel = lDisabled) (h1 : lError ≤ level) (h2 : level ≤ lTrace) :
    _logf g ((Elog.Clear st e).2) level body = ((Elog.Clear st e).2, LogResult.silent)
  ∧ (_logf g ((Elog.Clear st e).2) level body).2 ≠ LogResult.nilCrash := by
  have hmain : _logf g ((Elog.Clear st e).2) level body = ((Elog.Clear st e).2, LogResult.silent) := by
    apply logf_silent_of_not_eligible
    rintro ⟨-, hpass | ⟨hgl, -⟩⟩
    · have hlev : ((Elog.Clear st e).2).level = lDisabled := rfl
      rw [hlev] at hpass
      exact absurd (le_trans h1 hpass) (by decide)
    · rw [hg] at hgl
      exact absurd hgl (by simp [lDisabled])
  exact ⟨hmain, by rw [hmain]; simp⟩

/-- Claim C10 witness: clearing a concrete Info logger and then calling it
at lError with the initial globals yields silence. -/
theorem C10_clear_safe_witness :
    (initState._globalLevel = lDisabled ∧ lError ≤ lError ∧ lError ≤ lTrace)
  ∧ _logf initState ((Elog.Clear initState (elogAt lInfo)).2) lError "x" =
      ((Elog.Clear initState (elogAt lInfo)).2, LogResult.silent) :=
  ⟨⟨rfl, by decide, by decide⟩,
   (C10_clear_safe initState initState (elogAt lInfo) lError "x" rfl (by decide) (by decide)).1⟩

/-- Claim C5 counterexample: a logger whose level is lDisabled, with logs
active and the global override lDisabled, still emits on a Cond call whose
level name "bogus" is unrecognized: the call resolves to lDisabled and the
filter lDisabled ≤ lDisabled passes, so a line with the DISABLE header is
written. -/
theorem C5_counterexample :
    (elogAt lDisabled).level = lDisabled
  ∧ gPlain._globalLevel = lDisabled
  ∧ gPlain.logsActive = true
  ∧ (Elog.Cond gPlain (elogAt lDisabled) true "bogus" "bogus" "x").2 =
      LogResult.emitted " (DISABLE) x" := by
  decide

/-- Claim C5 (amended): a logger at lDisabled with the global override at
lDisabled emits nothing for calls at levels lError through lTrace; but a
call whose level resolves to lDisabled — such as Cond with an unrecognized
level name — passes the filter (lDisabled is not above the instance level)
and is emitted with the DISABLE header. -/
theorem C5_disabled_logger (g : GState) (e : Elog) (level : llevel) (body s : String)
    (hlev : e.level = lDisabled) (hg : g._globalLevel = lDisabled)
    (h1 : lError ≤ level) (h2 : level ≤ lTrace) :
    _logf g e level body = (e, LogResult.silent)
  ∧ (_value (_valid s) = lDisabled → g.logsActive = true → e._log = some () →
      checkElFlag g._elFlags ELSuppressRepeated = false →
      (Elog.Cond g e true s s body).2 = LogResult.emitted (" (DISABLE) " ++ body)) := by
  constructor
  · apply logf_silent_of_not_eligible
    rintro ⟨-, hpass | ⟨hgl, -⟩⟩
    · rw [hlev] at hpass
      exact absurd (le_trans h1 hpass) (by decide)
    · rw [hg] at hgl
      exact absurd hgl (by simp [lDisabled])
  · intro hs hact hlog hsup
    have helig : g.logsActive = true ∧
        (_value (_valid s) ≤ e.level ∨ (lDisabled < g._globalLevel ∧ _value (_valid s) ≤ g._globalLevel)) := by
      refine ⟨hact, Or.inl ?_⟩
      rw [hs, hlev]
    rw [Elog.Cond, if_pos rfl, _logf, if_neg (not_not_intro helig), if_pos (by simp [hsup])]
    have hhead : header (_value (_valid s)) = " (DISABLE) " := by
      rw [hs]
      decide
    rw [hhead]
    simp [elogOutput, hlog]

/-- Claim C5 witness: the amended statement instantiated at a concrete
disabled logger, the flags-cleared state, the level lError and the
unrecognized name "bogus". -/
theorem C5_disabled_logger_witness :
    ((elogAt lDisabled).level = lDisabled ∧ gPlain._globalLevel = lDisabled
      ∧ lError ≤ lError ∧ lError ≤ lTrace)
  ∧ _logf gPlain (elogAt lDisabled) lError "x" = (elogAt lDisabled, LogResult.silent) :=
  ⟨⟨rfl, rfl, by decide, by decide⟩,
   (C5_disabled_logger gPlain (elogAt lDisabled) lError "x" "bogus" rfl rfl
      (by decide) (by decide)).1⟩

/-- Claim C6 counterexample: with the mimic flag cleared, logs active and
the default singleton's level set to lDisabled, the package-level Print
emits nothing while an instance-level unleveled Print on the same logger
does emit — so the package-level call does not behave like a normal scoped
logger's unleveled call and does not bypass level filtering. -/
theorem C6_counterexample :
    checkElFlag gPlain._elFlags ELLikeDefaultLog = false
  ∧ gPlain.logsActive = true
  ∧ Print gPlain stdDisabled "x" = LogResult.silent
  ∧ Elog.Print gPlain stdDisabled "x" = LogResult.emitted " (Print) x"
  ∧ Print gPlain stdDisabled "x" ≠ Elog.Print gPlain stdDisabled "x" := by
  decide

/-- Claim C6 (amended): with the mimic flag set, the package-level print
family forwards the body to the plain underlying log primitive with no
filtering and no method tag; with the flag cleared, the calls emit nothing
when logs are inactive or when the default singleton's level is lDisabled,
and otherwise emit tagged with their method name — so they respect the
active switch plus a Disabled-level check, unlike instance-level unleveled
calls, which respect the active switch alone. -/
theorem C6_mimic_flag (g : GState) (std : Elog) (body : String) :
    (checkElFlag g._elFlags ELLikeDefaultLog = true →
        Print g std body = elogOutput std body
      ∧ Printf g std body = elogOutput std body
      ∧ Println g std body = elogOutput std body)
  ∧ (checkElFlag g._elFlags ELLikeDefaultLog = false →
        ((g.logsActive = false ∨ std.level = lDisabled) →
            Print g std body = LogResult.silent
          ∧ Printf g std body = LogResult.silent
          ∧ Println g std body = LogResult.silent)
      ∧ (g.logsActive = true → ¬ std.level = lDisabled →
            Print g std body = elogOutput std (" (Print) " ++ body)
          ∧ Printf g std body = elogOutput std (" (Printf) " ++ body)
          ∧ Println g std body = elogOutput std (" (Println) " ++ body))
      ∧ (g.logsActive = true →
            Elog.Print g std body = elogOutput std (" (Print) " ++ body)
          ∧ Elog.Printf g std body = elogOutput std (" (Printf) " ++ body)
          ∧ Elog.Println g std body = elogOutput std (" (Println) " ++ body))) := by
  refine ⟨fun hset => ?_, fun hclear => ⟨fun hoff => ?_, fun hon hlev => ?_, fun hon => ?_⟩⟩
  · simp [Print, Printf, Println, hset]
  · simp [Print, Printf, Println, hclear, hoff]
  · have hact : ¬ g.logsActive = false := by simp [hon]
    simp [Print, Printf, Println, hclear, hact, hlev]
  · have hact : ¬ g.logsActive = false := by simp [hon]
    simp [Elog.Print, Elog.Printf, Elog.Println, hact]

/-- Claim C6 witness: the mimic-flag-set branch at the initial state (flag
set there) on the default singleton. -/
theorem C6_mimic_flag_witness :
    checkElFlag initState._elFlags ELLikeDefaultLog = true
  ∧ (Print initState _stdLogInit "x" = elogOutput _stdLogInit "x"
    ∧ Printf initState _stdLogInit "x" = elogOutput _stdLogInit "x"
    ∧ Println initState _stdLogInit "x" = elogOutput _stdLogInit "x") :=
  ⟨by decide, (C6_mimic_flag initState _stdLogInit "x").1 (by decide)⟩

/-- Claim C1: with a live internal logger and suppression off (so that
eligibility is observable as a written line), every leveled emission method
writes a line exactly when logs are active and the call level is within the
instance level or within a global override that is strictly above lDisabled;
the instance level alone always suffices (the override never narrows), an
override above lDisabled alone suffices (the override widens), and the two
concrete consequences hold: an lError logger with an lTrace override emits
at lInfo, and an lTrace logger with an lDisabled override emits at lInfo. -/
theorem C1_level_filter (g : GState) (e : Elog) (body : String) (c : Bool) (tl fl : String)
    (hlog : e._log = some ()) (hsup : checkElFlag g._elFlags ELSuppressRepeated = false) :
    ((Elog.Error g e body).2 ≠ LogResult.silent ↔ eligible g e lError)
  ∧ ((Elog.Warn g e body).2 ≠ LogResult.silent ↔ eligible g e lWarn)
  ∧ ((Elog.Info g e body).2 ≠ LogResult.silent ↔ eligible g e lInfo)
  ∧ ((Elog.Verbose g e body).2 ≠ LogResult.silent ↔ eligible g e lVerbose)
  ∧ ((Elog.Trace g e body).2 ≠ LogResult.silent ↔ eligible g e lTrace)
  ∧ ((Elog.Errorf g e body).2 ≠ LogResult.silent ↔ eligible g e lError)
  ∧ ((Elog.Warnf g e body).2 ≠ LogResult.silent ↔ eligible g e lWarn)
  ∧ ((Elog.Infof g e body).2 ≠ LogResult.silent ↔ eligible g e lInfo)
  ∧ ((Elog.Verbosef g e body).2 ≠ LogResult.silent ↔ eligible g e lVerbose)
  ∧ ((Elog.Tracef g e body).2 ≠ LogResult.silent ↔ eligible g e lTrace)
  ∧ ((Elog.Cond g e c tl fl body).2 ≠ LogResult.silent ↔
      eligible g e (_value (_valid (if c then tl else fl))))
  ∧ ((Elog.Condf g e c tl fl body).2 ≠ LogResult.silent ↔
      eligible g e (_value (_valid (if c then tl else fl))))
  ∧ (∀ level : llevel, g.logsActive = true → level ≤ e.level → eligible g e level)
  ∧ (∀ level : llevel, g.logsActive = true → lDisabled < g._globalLevel →
      level ≤ g._globalLevel → eligible g e level)
  ∧ (e.level = lError → g._globalLevel = lTrace → g.logsActive = true →
      (Elog.Info g e body).2 ≠ LogResult.silent)
  ∧ (e.level = lTrace → g._globalLevel = lDisabled → g.logsActive = true →
      (Elog.Info g e body).2 ≠ LogResult.silent) := by
  have hiff := logf_ne_silent_iff g e
  have hcond : (Elog.Cond g e c tl fl body).2 = (_logf g e (_value (_valid (if c then tl else fl))) body).2 := by
    cases c <;> simp [Elog.Cond]
  have hcondf : (Elog.Condf g e c tl fl body).2 = (_logf g e (_value (_valid (if c then tl else fl))) body).2 := by
    cases c <;> simp [Elog.Condf]
  refine ⟨hiff lError body hlog hsup, hiff lWarn body hlog hsup, hiff lInfo body hlog hsup,
    hiff lVerbose body hlog hsup, hiff lTrace body hlog hsup,
    hiff lError body hlog hsup, hiff lWarn body hlog hsup, hiff lInfo body hlog hsup,
    hiff lVerbose body hlog hsup, hiff lTrace body hlog hsup,
    by rw [hcond]; exact hiff _ body hlog hsup,
    by rw [hcondf]; exact hiff _ body hlog hsup,
    fun level hact hown => ⟨hact, Or.inl hown⟩,
    fun level hact hgl hup => ⟨hact, Or.inr ⟨hgl, hup⟩⟩,
    fun hlev hgl hact => ?_, fun hlev hgl hact => ?_⟩
  · exact (hiff lInfo body hlog hsup).2 ⟨hact, Or.inr (by rw [hgl]; exact ⟨by decide, by decide⟩)⟩
  · exact (hiff lInfo body hlog hsup).2 ⟨hact, Or.inl (by rw [hlev]; decide)⟩

/-- Claim C1 witness: the Error-method conjunct at the flags-cleared state
and a live Info logger. -/
theorem C1_level_filter_witness :
    ((elogAt lInfo)._log = some () ∧ checkElFlag gPlain._elFlags ELSuppressRepeated = false)
  ∧ ((Elog.Error gPlain (elogAt lInfo) "b").2 ≠ LogResult.silent ↔
      eligible gPlain (elogAt lInfo) lError) :=
  ⟨⟨rfl, by decide⟩,
   (C1_level_filter gPlain (elogAt lInfo) "b" true "info" "warn" rfl (by decide)).1⟩

/-- Claim C8: with the suppress-repeated flag disabled, an eligible leveled
call on a live logger emits the header-plus-body line verbatim and leaves
the instance — in particular its __lastMsg and __lastCount suppression
memory — unchanged; consequently any number of identical consecutive
eligible calls all emit verbatim. -/
theorem C8_no_suppression (g : GState) (e : Elog) (level : llevel) (body : String)
    (hsup : checkElFlag g._elFlags ELSuppressRepeated = false)
    (helig : eligible g e level) (hlog : e._log = some ()) :
    _logf g e level body = (e, LogResult.emitted (header level ++ body))
  ∧ ∀ n : Nat, runLog g e level (List.replicate n body) =
      (e, List.replicate n (LogResult.emitted (header level ++ body))) := by
  have hone : _logf g e level body = (e, LogResult.emitted (header level ++ body)) := by
    have h : g.logsActive = true ∧
        (level ≤ e.level ∨ (lDisabled < g._globalLevel ∧ level ≤ g._globalLevel)) := helig
    rw [_logf, if_neg (not_not_intro h), if_pos (by simp [hsup])]
    simp [elogOutput, hlog]
  refine ⟨hone, fun n => ?_⟩
  induction n with
  | zero => simp [runLog]
  | succ n ih => simp [List.replicate_succ, runLog, hone, ih]

/-- Claim C8 witness: 27 identical eligible Info calls with suppression off
all emit verbatim and leave the logger unchanged. -/
theorem C8_no_suppression_witness :
    (checkElFlag gPlain._elFlags ELSuppressRepeated = false
      ∧ eligible gPlain (elogAt lInfo) lInfo ∧ (elogAt lInfo)._log = some ())
  ∧ runLog gPlain (elogAt lInfo) lInfo (List.replicate 27 "same message") =
      (elogAt lInfo, List.replicate 27 (LogResult.emitted (header lInfo ++ "same message"))) :=
  ⟨⟨by decide, ⟨rfl, Or.inl (by decide)⟩, rfl⟩,
   (C8_no_suppression gPlain (elogAt lInfo) lInfo "same message" (by decide)
      ⟨rfl, Or.inl (by decide)⟩ rfl).2 27⟩

/-- Helper: the fueled divide-by-three test decides the power-of-three
predicate once the fuel covers the argument. -/
theorem isPow3Aux_iff : ∀ fuel n : Nat, 0 < n → n ≤ fuel →
    (isPow3Aux fuel n = true ↔ ∃ k : Nat, 3 ^ k = n) := by
  intro fuel
  induction fuel with
  | zero => intro n h0 hf; omega
  | succ fuel ih =>
    intro n h0 hf
    match n with
    | 1 =>
      have heq : isPow3Aux (fuel + 1) 1 = true := rfl
      rw [heq]
      simp only [true_iff]
      exact ⟨0, rfl⟩
    | (m + 2) =>
      have heq : isPow3Aux (fuel + 1) (m + 2) =
          (decide ((m + 2) % 3 = 0) && decide (2 ≤ m + 2) && isPow3Aux fuel ((m + 2) / 3)) := rfl
      rw [heq, Bool.and_eq_true, Bool.and_eq_true, decide_eq_true_iff, decide_eq_true_iff]
      by_cases h3 : (m + 2) % 3 = 0
      · have hq0 : 0 < (m + 2) / 3 := by omega
        have hqf : (m + 2) / 3 ≤ fuel := by omega
        constructor
        · rintro ⟨⟨-, -⟩, hrec⟩
          obtain ⟨k, hk⟩ := (ih _ hq0 hqf).1 hrec
          refine ⟨k + 1, ?_⟩
          have hmul : (m + 2) / 3 * 3 = m + 2 := by omega
          rw [pow_succ, hk, hmul]
        · rintro ⟨k, hk⟩
          match k, hk with
          | 0, hk => omega
          | (k + 1), hk =>
            refine ⟨⟨h3, by omega⟩, (ih _ hq0 hqf).2 ⟨k, ?_⟩⟩
            have hk' : 3 * 3 ^ k = m + 2 := by rw [← hk]; ring
            omega
      · constructor
        · rintro ⟨⟨h3', -⟩, -⟩
          exact absurd h3' h3
        · rintro ⟨k, hk⟩
          match k, hk with
          | 0, hk => omega
          | (k + 1), hk =>
            have hk' : 3 * 3 ^ k = m + 2 := by rw [← hk]; ring
            omega

/-- Helper: the modelled isPowerOfThree test holds exactly on the positive
integral powers of three. -/
theorem isPowerOfThree_iff (n : Int) :
    isPowerOfThree n = true ↔ (0 < n ∧ ∃ k : Nat, (3 : Int) ^ k = n) := by
  rw [isPowerOfThree, Bool.and_eq_true, decide_eq_true_iff]
  constructor
  · rintro ⟨hpos, haux⟩
    obtain ⟨k, hk⟩ := (isPow3Aux_iff n.toNat n.toNat (by omega) le_rfl).1 haux
    refine ⟨hpos, k, ?_⟩
    have hcast : ((3 ^ k : Nat) : Int) = ((n.toNat : Nat) : Int) := by rw [hk]
    push_cast at hcast
    omega
  · rintro ⟨hpos, k, hk⟩
    refine ⟨hpos, (isPow3Aux_iff n.toNat n.toNat (by omega) le_rfl).2 ⟨k, ?_⟩⟩
    have hcast : ((3 ^ k : Nat) : Int) = (3 : Int) ^ k := by push_cast; rfl
    omega

/-- Claim C2 counterexample: suppression enabled, 27 identical eligible Info
messages on one logger.  The emitted lines are the plain first message and
indicator lines at repeat counts 1, 3 and 9 — not 3, 9 and 27 as the claim
states (the 27th call has repeat count 26, and the second call already
emits an indicator at count 1). -/
theorem C2_counterexample :
    emittedLines (runLog gSup (elogAt lInfo) lInfo (List.replicate 27 "same message")).2 =
      [" (INFO) same message", " last message repeated 1 times",
       " last message repeated 3 times", " last message repeated 9 times"]
  ∧ " last message repeated 27 times" ∉
      emittedLines (runLog gSup (elogAt lInfo) lInfo (List.replicate 27 "same message")).2
  ∧ " last message repeated 1 times" ∈
      emittedLines (runLog gSup (elogAt lInfo) lInfo (List.replicate 27 "same message")).2 := by
  decide

/-- Claim C2 (amended): with suppression enabled, an eligible call whose
header-plus-body equals the stored last message increments the repeat count,
an indicator line is written exactly when the new count is a power of three
(3 to the 0, that is count 1, included), with the too-many-times text
appended exactly when the count exceeds 9; for 27 identical consecutive
eligible messages the first line is emitted plainly and indicator lines
follow at repeat counts 1, 3 and 9 — exactly 3 indicator emissions after
the first line.  The count is bounded by 242 because there the source's
floating-point logarithm test provably agrees with the exact power-of-three
predicate; at 243 (3 to the 5) the float test goes wrong and the source
would not emit, which a shallow embedding cannot state exactly. -/
theorem C2_repeat_rules (g : GState) (e : Elog) (level : llevel) (body : String)
    (hsup : checkElFlag g._elFlags ELSuppressRepeated = true)
    (helig : eligible g e level) (hlog : e._log = some ())
    (hmatch : header level ++ body = e.__lastMsg) (hc : 0 ≤ e.__lastCount)
    (hbound : e.__lastCount + 1 ≤ 242) :
    (_logf g e level body).1.__lastCount = e.__lastCount + 1
  ∧ (_logf g e level body).1.__lastMsg = e.__lastMsg
  ∧ ((_logf g e level body).2 ≠ LogResult.silent ↔
      ∃ k : Nat, (3 : Int) ^ k = e.__lastCount + 1)
  ∧ ((∃ k : Nat, (3 : Int) ^ k = e.__lastCount + 1) →
      (_logf g e level body).2 = LogResult.emitted (repeatedMsg (e.__lastCount + 1) ++
        (if e.__lastCount + 1 > 9 then " (too many times)" else "")))
  ∧ emittedLines (runLog gSup (elogAt lInfo) lInfo (List.replicate 27 "same message")).2 =
      [" (INFO) same message", " last message repeated 1 times",
       " last message repeated 3 times", " last message repeated 9 times"] := by
  have h : g.logsActive = true ∧
      (level ≤ e.level ∨ (lDisabled < g._globalLevel ∧ level ≤ g._globalLevel)) := helig
  have hstep : _logf g e level body =
      suppressTail { e with __lastCount := e.__lastCount + 1 }
        (repeatedMsg (e.__lastCount + 1)) := by
    rw [_logf, if_neg (not_not_intro h), if_neg (by simp [hsup]), if_pos hmatch]
  have hpow : isPowerOfThree (e.__lastCount + 1) = true ↔
      ∃ k : Nat, (3 : Int) ^ k = e.__lastCount + 1 := by
    rw [isPowerOfThree_iff]
    constructor
    · rintro ⟨-, hk⟩; exact hk
    · intro hk; exact ⟨by omega, hk⟩
  have hne : ¬ (e.__lastCount + 1 = 0) := by omega
  refine ⟨?_, ?_, ?_, ?_, by decide⟩
  · rw [hstep, suppressTail]
    split <;> rfl
  · rw [hstep, suppressTail]
    split <;> rfl
  · rw [hstep, suppressTail]
    by_cases hp : isPowerOfThree ({ e with __lastCount := e.__lastCount + 1 } : Elog).__lastCount
          || ({ e with __lastCount := e.__lastCount + 1 } : Elog).__lastCount = 0
    · rw [if_pos hp]
      simp only [elogOutput, hlog]
      simp only [Bool.or_eq_true, decide_eq_true_iff] at hp
      rcases hp with hp | hp
      · simpa using (hpow.1 hp)
      · exact absurd hp hne
    · rw [if_neg hp]
      simp only [Bool.or_eq_true, decide_eq_true_iff, not_or] at hp
      simp only [ne_eq, not_true_eq_false, false_iff]
      intro hk
      exact hp.1 (by simpa using hpow.2 hk)
  · intro hk
    have hp : isPowerOfThree ({ e with __lastCount := e.__lastCount + 1 } : Elog).__lastCount = true := by
      simpa using hpow.2 hk
    rw [hstep, suppressTail, if_pos (by simp [hp])]
    simp only [elogOutput, hlog]
    split <;> simp

/-- Claim C2 witness: a repeated Info message on a logger whose stored count
is 2 increments the count to 3. -/
theorem C2_repeat_rules_witness :
    (checkElFlag gSup._elFlags ELSuppressRepeated = true
      ∧ eligible gSup eRep lInfo ∧ eRep._log = some ()
      ∧ header lInfo ++ "m" = eRep.__lastMsg ∧ 0 ≤ eRep.__lastCount
      ∧ eRep.__lastCount + 1 ≤ 242)
  ∧ (_logf gSup eRep lInfo "m").1.__lastCount = eRep.__lastCount + 1 :=
  ⟨⟨by decide, ⟨rfl, Or.inl (by decide)⟩, rfl, by decide, by decide, by decide⟩,
   (C2_repeat_rules gSup eRep lInfo "m" (by decide) ⟨rfl, Or.inl (by decide)⟩ rfl
      (by decide) (by decide) (by decide)).1⟩

/-- Helper: creating a logger appends it to the registry, gives it the next
fresh address, keeps its scope, and preserves the registry invariant. -/
theorem NewElog_inv (st : GState) (s lvl : String) (out : Option Sink) (hinv : RegInv st) :
    (NewElog st s lvl out).1._logs = st._logs ++ [(NewElog st s lvl out).2]
  ∧ (NewElog st s lvl out).2.scope = s
  ∧ (NewElog st s lvl out).2.addr = st.nextAddr
  ∧ (NewElog st s lvl out).1.nextAddr = st.nextAddr + 1
  ∧ (NewElog st s lvl out).2._id = _hash s st.nextAddr
  ∧ (NewElog st s lvl out).2._log = some ()
  ∧ RegInv (NewElog st s lvl out).1 := by
  obtain ⟨hlt, hnd, hid⟩ := hinv
  refine ⟨rfl, rfl, rfl, rfl, rfl, rfl, ?_, ?_, ?_⟩
  · intro k hk
    rcases List.mem_append.1 hk with hk | hk
    · exact Nat.lt_succ_of_lt (hlt k hk)
    · rcases List.mem_singleton.1 hk with rfl
      exact Nat.lt_succ_self _
  · show (List.map Elog.addr (st._logs ++ [(NewElog st s lvl out).2])).Nodup
    rw [List.map_append, List.nodup_append]
    refine ⟨hnd, List.nodup_singleton _, ?_⟩
    intro a ha hb
    rcases List.mem_map.1 ha with ⟨k, hk, rfl⟩
    have hb' : k.addr = st.nextAddr := by
      simpa [NewElog] using hb
    exact absurd hb' (Nat.ne_of_lt (hlt k hk))
  · intro k hk
    rcases List.mem_append.1 hk with hk | hk
    · exact hid k hk
    · rcases List.mem_singleton.1 hk with rfl
      rfl

/-- Helper: creating one logger per scope appends exactly those loggers to
the registry, in order, with the given scopes and live internals, and
preserves the registry invariant. -/
theorem createAll_spec (scopes : List String) : ∀ st : GState, RegInv st →
    (createAll st scopes).1._logs = st._logs ++ (createAll st scopes).2
  ∧ (createAll st scopes).2.map Elog.scope = scopes
  ∧ (∀ k ∈ (createAll st scopes).2, k._log = some ())
  ∧ RegInv (createAll st scopes).1 := by
  induction scopes with
  | nil => intro st hinv; exact ⟨by simp [createAll], rfl, by simp [createAll], hinv⟩
  | cons s rest ih =>
    intro st hinv
    obtain ⟨hlogs, hscope, haddr, hnext, hid, hlog, hinv'⟩ :=
      NewElog_inv st s "info" none hinv
    obtain ⟨ihlogs, ihscope, ihlog, ihinv⟩ := ih (NewElog st s "info" none).1 hinv'
    have hun : createAll st (s :: rest) =
        ((createAll (NewElog st s "info" none).1 rest).1,
          (NewElog st s "info" none).2 :: (createAll (NewElog st s "info" none).1 rest).2) := rfl
    rw [hun]
    refine ⟨?_, ?_, ?_, ihinv⟩
    · rw [ihlogs, hlogs, List.append_assoc, List.singleton_append]
    · rw [List.map_cons, ihscope, hscope]
    · intro k hk
      rcases List.mem_cons.1 hk with rfl | hk
      · exact hlog
      · exact ihlog k hk

/-- Helper: removing one registered instance by its address, when addresses
are pairwise distinct, removes exactly one entry. -/
theorem filter_ne_addr_length {l : List Elog} {e : Elog}
    (hn : (l.map Elog.addr).Nodup) (he : e ∈ l) :
    (l.filter (fun k => k.addr ≠ e.addr)).length + 1 = l.length := by
  induction l with
  | nil => cases he
  | cons a l ih =>
    rw [List.map_cons, List.nodup_cons] at hn
    rcases List.mem_cons.1 he with rfl | he'
    · have hkeep : l.filter (fun k => k.addr ≠ e.addr) = l := by
        apply List.filter_eq_self.2
        intro k hk
        simp only [ne_eq, decide_eq_true_iff]
        intro hEq
        exact hn.1 (hEq ▸ List.mem_map_of_mem Elog.addr hk)
      rw [List.filter_cons, if_neg (by simp), hkeep]
      simp
    · have hne : a.addr ≠ e.addr := by
        intro hEq
        exact hn.1 (hEq ▸ List.mem_map_of_mem Elog.addr he')
      rw [List.filter_cons, if_pos (by simpa using hne)]
      simp only [List.length_cons]
      rw [← ih hn.2 he']

/-- Claim C7 counterexample: the registry is not empty at process start —
init registers the default singleton — so after creating 1 instance the
enumeration returns 2 entries, not 1. -/
theorem C7_counterexample :
    (createAll initState ["a"]).2.length = 1
  ∧ (ListScopedLogs (createAll initState ["a"]).1).length = 2
  ∧ (ListScopedLogs (createAll initState ["a"]).1).length ≠ (createAll initState ["a"]).2.length := by
  have h1 : (createAll initState ["a"]).2.length = 1 := rfl
  have h2 : (ListScopedLogs (createAll initState ["a"]).1).length = 2 := by
    rw [ListScopedLogs, (List.perm_insertionSort scopeLe _).length_eq]
    rfl
  exact ⟨h1, h2, by rw [h1, h2]; decide⟩

/-- Claim C7 (amended): after creating N instances with distinct scope
names, the registry holds exactly those N instances plus the pre-registered
default singleton, each exactly once (addresses pairwise distinct);
enumeration returns a permutation of those N+1 entries sorted by scope
name; and after disposing any created instance via Clear the registry holds
N entries, none with the disposed address, and lookup of the disposed
instance's id finds nothing. -/
theorem C7_registry (scopes : List String) (hnd : scopes.Nodup) :
    (createAll initState scopes).2.length = scopes.length
  ∧ (createAll initState scopes).2.map Elog.scope = scopes
  ∧ (createAll initState scopes).1._logs = _stdLogInit :: (createAll initState scopes).2
  ∧ ((createAll initState scopes).1._logs.map Elog.addr).Nodup
  ∧ List.Perm (ListScopedLogs (createAll initState scopes).1)
      (_stdLogInit :: (createAll initState scopes).2)
  ∧ (ListScopedLogs (createAll initState scopes).1).length = scopes.length + 1
  ∧ List.Sorted scopeLe (ListScopedLogs (createAll initState scopes).1)
  ∧ ∀ e ∈ (createAll initState scopes).2,
        (Elog.Clear (createAll initState scopes).1 e).1._logs.length = scopes.length
      ∧ (∀ k ∈ (Elog.Clear (createAll initState scopes).1 e).1._logs, k.addr ≠ e.addr)
      ∧ GetScopedLogByID (Elog.Clear (createAll initState scopes).1 e).1 e._id = none := by
  have hinv0 : RegInv initState := ⟨by decide, by decide, by decide⟩
  obtain ⟨hlogs, hscopes, hlive, hinv⟩ := createAll_spec scopes initState hinv0
  obtain ⟨hlt, hndaddr, hid⟩ := hinv
  have hlogs' : (createAll initState scopes).1._logs =
      _stdLogInit :: (createAll initState scopes).2 := by
    rw [hlogs]; rfl
  have hlen : (createAll initState scopes).2.length = scopes.length := by
    conv_rhs => rw [← hscopes]
    rw [List.length_map]
  have hperm : List.Perm (ListScopedLogs (createAll initState scopes).1)
      (_stdLogInit :: (createAll initState scopes).2) := by
    rw [ListScopedLogs, hlogs']
    exact List.perm_insertionSort scopeLe _
  refine ⟨hlen, hscopes, hlogs', ?_, hperm, ?_, List.sorted_insertionSort scopeLe _, ?_⟩
  · exact hndaddr
  · rw [hperm.length_eq, List.length_cons, hlen]
  · intro e he
    have hemem : e ∈ (createAll initState scopes).1._logs := by
      rw [hlogs']
      exact List.mem_cons_of_mem _ he
    have hcl : (Elog.Clear (createAll initState scopes).1 e).1._logs =
        (createAll initState scopes).1._logs.filter (fun k => k.addr ≠ e.addr) := rfl
    refine ⟨?_, ?_, ?_⟩
    · have h1 := filter_ne_addr_length hndaddr hemem
      have h2 : (createAll initState scopes).1._logs.length = scopes.length + 1 := by
        rw [hlogs', List.length_cons, hlen]
      rw [hcl]
      omega
    · intro k hk
      rw [hcl] at hk
      have hk' := List.mem_filter.1 hk
      simpa using hk'.2
    · rw [GetScopedLogByID, hcl]
      apply List.find?_eq_none.2
      intro k hk
      have hk' := List.mem_filter.1 hk
      have hkaddr : k.addr ≠ e.addr := by simpa using hk'.2
      have hkid := hid k hk'.1
      have heid := hid e hemem
      simp only [beq_iff_eq, decide_eq_true_eq]
      intro hEq
      apply hkaddr
      have haddr := congrArg ElogId.addr hEq
      rw [hkid, heid] at haddr
      exact haddr

/-- Claim C7 witness: two distinct scopes created from the initial state
yield two created instances. -/
theorem C7_registry_witness :
    (["b", "a"].Nodup) ∧ (createAll initState ["b", "a"]).2.length = ["b", "a"].length :=
  ⟨by decide, (C7_registry ["b", "a"] (by decide)).1⟩
